import Mathlib

/-!
Verification of the AI-content detection pipeline in `src/python/ai_detector.py`.

The development shallowly embeds the pure computational core of the pipeline:

* Python `str.split()` (whitespace tokenization) and `' '.join` as
  `pysplit` / `pyjoin` over `List Char`;
* `chunk_text` (overlapping word-windowing);
* `detect_ai_content_simple` (the statistical heuristic fallback, together
  with the one internal exception it can raise);
* the ensemble combination step of `detect_ai_content_advanced`;
* the chunk-level score arithmetic of `detect_roberta` / `detect_binoculars`
  (chunk probabilities and per-token losses enter as parameters, since the
  neural inference itself is outside the embedding);
* the short-input gate and result merging of `analyze_ai_likelihood`;
* an interleaving model of the unsynchronized model cache
  (`get_cached_model`) for the concurrency claim.

Python floats are modelled by `ℚ` (and by `ℝ` where the code applies
`math.exp` / square roots); `round(x, 2)` is modelled exactly, including its
round-half-to-even behaviour.  The file is organised as definitions first,
then theorems.
-/

namespace AIDetector

/-! # Definitions -/

/-! ## Whitespace tokenization: Python `str.split()` and `' '.join` -/

/-- Whitespace test used by Python `str.split()` (restricted to the ASCII
whitespace recognised by `Char.isWhitespace`). -/
def isWs (c : Char) : Bool := c.isWhitespace

/-- Worker for `tokenize`: `acc` holds the (reversed) characters of the word
currently being read. -/
def tokAux : List Char → List Char → List (List Char)
  | [], acc => if acc.isEmpty then [] else [acc.reverse]
  | c :: cs, acc =>
    if isWs c then
      if acc.isEmpty then tokAux cs [] else acc.reverse :: tokAux cs []
    else
      tokAux cs (c :: acc)

/-- Python `str.split()` with no separator argument: split on runs of
whitespace, never producing empty words. -/
def tokenize (l : List Char) : List (List Char) := tokAux l []

/-- The word list of a string, as computed by Python `text.split()`. -/
def pysplit (s : String) : List (List Char) := tokenize s.data

/-- Python `' '.join(ws)` at the character-list level. -/
def pyjoinL : List (List Char) → List Char
  | [] => []
  | [w] => w
  | w :: ws => w ++ ' ' :: pyjoinL ws

/-- Python `' '.join(ws)` returning a `String`. -/
def pyjoin (ws : List (List Char)) : String := ⟨pyjoinL ws⟩

/-- Python `str.strip()`: remove leading and trailing whitespace. -/
def pyStrip (l : List Char) : List Char :=
  ((l.dropWhile isWs).reverse.dropWhile isWs).reverse

/-! ## `chunk_text` (ai_detector.py lines 208–232)

`chunk_text(text, chunk_size, overlap)` splits `text.split()` into windows
`words[i:i+chunk_size]` for `i in range(0, len(words), chunk_size - overlap)`,
keeping only windows of at least 50 words, and joining each with spaces.
Python's `range(0, n, step)` raises `ValueError` when `step == 0`
(`overlap == chunk_size`), which we model as `none`; a negative step
(`overlap > chunk_size`) yields an empty `range`, hence no chunks. -/

/-- `range(0, n, step)` for `step > 0`: the multiples of `step` below `n`. -/
def pyrange (n step : Nat) : List Nat :=
  List.range' 0 ((n + step - 1) / step) step

/-- Embedding of `chunk_text`.  Chunks are returned as strings, exactly as the
source joins each word window with single spaces (the short-text branch
returns the original text unchanged). -/
def chunk_text (text : String) (chunk_size : Nat := 400) (overlap : Nat := 100) :
    Option (List String) :=
  let words := pysplit text
  if words.length ≤ chunk_size then some [text]
  else if chunk_size = overlap then none
  else if chunk_size < overlap then some []
  else some ((((pyrange words.length (chunk_size - overlap)).map
      (fun i => (words.drop i).take chunk_size)).filter
        (fun c => 50 ≤ c.length)).map pyjoin)

/-- Modelled from the spec (§4.2): "slides a window of `chunkSize` words with
stride `chunkSize - overlap`": take a window of `cs` words, advance by the
stride `s`, repeat until the text is exhausted.  (`max s 1` only makes the
recursion total; every use has `s ≥ 1`.) -/
def slide (cs s : Nat) (ws : List (List Char)) : List (List (List Char)) :=
  if ws.isEmpty then [] else ws.take cs :: slide cs s (ws.drop (max s 1))
  termination_by ws.length
  decreasing_by
    simp only [List.isEmpty_iff] at *
    have : 1 ≤ max s 1 := le_max_right s 1
    have hlen : 0 < ws.length := List.length_pos.mpr (by assumption)
    simp only [List.length_drop]
    omega

/-- A concrete 401-word text: 401 copies of the word "w". -/
def text401 : String := pyjoin (List.replicate 401 ['w'])

/-- A concrete 701-word text: 701 copies of the word "w". -/
def text701 : String := pyjoin (List.replicate 701 ['w'])

/-! ## Python `round(x, 2)`

Python's `round` uses round-half-to-even.  `round2` models `round(x, 2)`
exactly on rationals. -/

/-- Round to the nearest integer, ties to even (Python `round(x)`). -/
def roundHalfEven (x : ℚ) : ℤ :=
  if x - ⌊x⌋ < 1/2 then ⌊x⌋
  else if 1/2 < x - ⌊x⌋ then ⌊x⌋ + 1
  else if ⌊x⌋ % 2 = 0 then ⌊x⌋ else ⌊x⌋ + 1

/-- Python `round(x, 2)`. -/
def round2 (x : ℚ) : ℚ := (roundHalfEven (x * 100) : ℚ) / 100

/-! ## Detector results

The dictionaries returned by the detectors (`detect_ai_content_simple`,
`detect_roberta`, `detect_binoculars`, `detect_ai_content_advanced`) all
carry these fields; `roberta_score`/`binoculars_score` are present only on
the combined result. -/

structure DetectorResult where
  ai_likelihood : ℚ
  confidence : ℚ
  indicators : List String
  model : String
  note : String
  roberta_score : Option ℚ := none
  binoculars_score : Option ℚ := none
deriving DecidableEq

/-! ## `detect_ai_content_simple` (ai_detector.py lines 132–205)

The statistical heuristic.  Each of the five checks is embedded as a boolean
on the input text.  Rational comparisons replace the float ones
(`cv < 0.3`, `ratio < 0.01`, `count > len*0.02`, `len(freq) < len*0.5`) by
their exact integer/rational equivalents, noted at each definition.
`statistics.stdev` raises `StatisticsError` on a single data point; this is
the one internal exception the function can hit (`simpleRaises`), caught by
its `except` clause. -/

/-- Python `text.split('.')`. -/
def splitDot : List Char → List (List Char)
  | [] => [[]]
  | c :: cs =>
    if c = '.' then [] :: splitDot cs
    else
      match splitDot cs with
      | [] => [[c]]
      | w :: ws => (c :: w) :: ws

/-- `sentences = text.split('.')`. -/
def sentences (text : String) : List (List Char) := splitDot text.data

/-- `lengths = [len(s.split()) for s in sentences if s.strip()]`. -/
def sentenceLengths (text : String) : List Nat :=
  (((sentences text).filter (fun s => !(pyStrip s).isEmpty)).map
    (fun s => (tokenize s).length))

/-- `statistics.mean` on a list of word counts, as a rational. -/
def qmean (l : List Nat) : ℚ := (l.map (fun x : Nat => (x : ℚ))).sum / l.length

/-- The square of `statistics.stdev`: sample variance with an `n - 1`
denominator. -/
def sampleVar (l : List Nat) : ℚ :=
  (l.map (fun x : Nat => ((x : ℚ) - qmean l) ^ 2)).sum / ((l.length : ℚ) - 1)

/-- `statistics.stdev(lengths)` would raise `StatisticsError` (one data
point); the surrounding `try` then returns the error result. -/
def simpleRaises (text : String) : Bool :=
  decide (3 < (sentences text).length) && decide ((sentenceLengths text).length = 1)

/-- Check 1, sentence uniformity: `cv = stdev/mean if mean > 0 else 0;
cv < 0.3`.  Since `stdev ≥ 0`, for `mean > 0` the float comparison
`stdev/mean < 0.3` is equivalent to the exact `var·100 < 9·mean²` used here
(equivalence proved in `cv_lt_iff`). -/
def check1 (text : String) : Bool :=
  decide (3 < (sentences text).length) &&
  decide (sentenceLengths text ≠ []) &&
  (if 0 < qmean (sentenceLengths text) then
     decide (sampleVar (sentenceLengths text) * 100
       < 9 * (qmean (sentenceLengths text)) ^ 2)
   else true)

/-- `starts = [s.strip().split()[0].lower() for s in sentences
if s.strip() and len(s.strip().split()) > 0]`. -/
def sentenceStarts (text : String) : List (List Char) :=
  (((sentences text).filter
      (fun s => !(pyStrip s).isEmpty && !(tokenize (pyStrip s)).isEmpty)).map
    (fun s => ((tokenize (pyStrip s)).headD []).map Char.toLower))

/-- Check 2, repetitive sentence starters: `len(freq) < len(starts) * 0.5`,
i.e. `2·(number of distinct starts) < number of starts`. -/
def check2 (text : String) : Bool :=
  decide (sentenceStarts text ≠ []) &&
  decide (2 * (sentenceStarts text).dedup.length < (sentenceStarts text).length)

/-- `words = text.lower().split()`. -/
def lowerWords (text : String) : List (List Char) :=
  tokenize (text.data.map Char.toLower)

def personalPronouns : List (List Char) :=
  ["i", "me", "my", "mine", "we", "us", "our"].map String.data

def pronounCount (text : String) : Nat :=
  (lowerWords text).countP (fun w => personalPronouns.contains w)

/-- Check 3, scarce first-person pronouns: `ratio = count/len if words else
0; ratio < 0.01`, i.e. empty words, or `100·count < len(words)`. -/
def check3 (text : String) : Bool :=
  if (lowerWords text).isEmpty then true
  else decide (100 * pronounCount text < (lowerWords text).length)

def transitionWords : List (List Char) :=
  ["furthermore", "moreover", "additionally", "consequently",
   "therefore", "thus", "hence", "accordingly", "nonetheless"].map String.data

def transitionCount (text : String) : Nat :=
  (lowerWords text).countP (fun w => transitionWords.contains w)

/-- Check 4, transition-word density: `count > len(words) * 0.02`, i.e.
`len(words) < 50·count`. -/
def check4 (text : String) : Bool :=
  decide ((lowerWords text).length < 50 * transitionCount text)

/-- The apostrophe character (spelled via its code point). -/
def apos : Char := Char.ofNat 39

/-- The contraction markers `["n't", "'ll", "'ve", "'re", "'m", "'s"]`. -/
def contractionTokens : List (List Char) :=
  [['n', apos, 't'], [apos, 'l', 'l'], [apos, 'v', 'e'],
   [apos, 'r', 'e'], [apos, 'm'], [apos, 's']]

/-- Python `pat in text` (substring containment). -/
def containsSub (pat l : List Char) : Bool :=
  l.tails.any (fun t => pat.isPrefixOf t)

def hasContractions (text : String) : Bool :=
  contractionTokens.any (fun c => containsSub c text.data)

/-- Check 5, no contractions in a >50-word text. -/
def check5 (text : String) : Bool :=
  !hasContractions text && decide (50 < (lowerWords text).length)

/-- The accumulated heuristic score before the `min(100, score)` cap. -/
def heurScore (text : String) : Nat :=
  (if check1 text then 30 else 0) + (if check2 text then 25 else 0) +
  (if check3 text then 20 else 0) + (if check4 text then 15 else 0) +
  (if check5 text then 10 else 0)

/-- The indicator strings, appended in check order. -/
def heurIndicators (text : String) : List String :=
  (if check1 text then ["Low sentence length variance"] else []) ++
  (if check2 text then ["Repetitive sentence starters"] else []) ++
  (if check3 text then ["Lack of personal pronouns"] else []) ++
  (if check4 text then ["High transitional phrase density"] else []) ++
  (if check5 text then ["Lack of contractions"] else [])

/-- `detect_ai_content_simple`: the heuristic result, or the caught-exception
fallback result (the `note` there is `str(e)`, whose text is immaterial). -/
def detect_ai_content_simple (text : String) : DetectorResult :=
  if simpleRaises text then
    { ai_likelihood := 50
      confidence := 3/10
      indicators := ["Error during analysis"]
      model := "fallback"
      note := "StatisticsError" }
  else
    { ai_likelihood := ((min 100 (heurScore text) : Nat) : ℚ)
      confidence := 7/10
      indicators := heurIndicators text
      model := "statistical_heuristics"
      note := "Using simplified detection. Install transformers for better accuracy." }

/-! ## `detect_ai_content_advanced` (ai_detector.py lines 428–520)

The ensemble runs `detect_roberta` and `detect_binoculars` on two worker
threads and waits for both; each returns its result dictionary or `None` on
any failure.  The embedding takes those two settled outcomes as arguments;
the combination logic below is the code after the join. -/

/-- Lines 479–497: the both-succeeded weighted combination. -/
def combineResults (roberta_result binoculars_result : DetectorResult) :
    DetectorResult :=
  { ai_likelihood := round2 (roberta_result.ai_likelihood * (6/10)
      + binoculars_result.ai_likelihood * (4/10))
    confidence := 92/100
    indicators := roberta_result.indicators ++ binoculars_result.indicators
    model := "combined:roberta+binoculars"
    note := "Combined RoBERTa (60%) and Binoculars (40%) detection"
    roberta_score := some roberta_result.ai_likelihood
    binoculars_score := some binoculars_result.ai_likelihood }

/-- Lines 479–511: combine, pass through the single success, or fall back to
the heuristic when both detectors failed. -/
def detect_ai_content_advanced
    (roberta_result binoculars_result : Option DetectorResult)
    (text : String) : DetectorResult :=
  match roberta_result, binoculars_result with
  | some r, some b => combineResults r b
  | some r, none => r
  | none, some b => b
  | none, none => detect_ai_content_simple text

/-- A classifier result with score 80.01 (e.g. a chunk average rounding to
80.01), used to exhibit the effect of `round(combined_score, 2)`. -/
def robertaCex : DetectorResult :=
  { ai_likelihood := 8001/100
    confidence := 92/100
    indicators := ["r-indicator"]
    model := "Hello-SimpleAI/chatgpt-detector-roberta"
    note := "" }

/-- A perplexity result with score 50. -/
def binocularsCex : DetectorResult :=
  { ai_likelihood := 50
    confidence := 93/100
    indicators := ["b-indicator"]
    model := "binoculars:gpt2|EleutherAI/gpt-neo-125M"
    note := "" }

/-! ## Chunk aggregation in `detect_roberta` / `detect_binoculars`
(ai_detector.py lines 272–313 and 375–421)

Each detector computes per-chunk scores, then their mean, population
variance and a confidence tier from the standard deviation.  The chunk
scores (softmax probabilities and per-token losses) come from model
inference and enter the embedding as parameters.  Since
`std = sqrt(variance) ≥ 0`, the code's tier tests `std < 10` / `std < 20`
are embedded as the exact equivalents `variance < 100` / `variance < 400`.
The f-string indicator and note texts interpolate numbers and are elided;
no claim examines them. -/

/-- Mean of a list of chunk scores (`sum(scores) / len(scores)`). -/
def avgOf (scores : List ℚ) : ℚ := scores.sum / scores.length

/-- Population variance of the chunk scores
(`sum((s - avg)**2 for s in scores) / len(scores)`). -/
def popVar (scores : List ℚ) : ℚ :=
  (scores.map (fun s => (s - avgOf scores) ^ 2)).sum / scores.length

/-- `detect_roberta` result assembly from the per-chunk AI probabilities
(`probs[0][1].item()` values, each a softmax output in `[0,1]`; the chunk
score is `ai_prob * 100`). -/
def robertaAggregate (probs : List ℚ) : DetectorResult :=
  { ai_likelihood := round2 (avgOf (probs.map (fun p => p * 100)))
    confidence :=
      if popVar (probs.map (fun p => p * 100)) < 100 then 92/100
      else if popVar (probs.map (fun p => p * 100)) < 400 then 85/100
      else 78/100
    indicators := ["Average across chunks", "Score range", "Standard deviation"]
    model := "Hello-SimpleAI/chatgpt-detector-roberta"
    note := "chunk consistency summary" }

/-- `detect_binoculars` result assembly from the per-chunk scores. -/
def binocularsAggregate (chunkScores : List ℚ) : DetectorResult :=
  { ai_likelihood := round2 (avgOf chunkScores)
    confidence :=
      if popVar chunkScores < 100 then 93/100
      else if popVar chunkScores < 400 then 87/100
      else 80/100
    indicators := ["Average across chunks", "Avg perplexity ratio",
      "Score range", "Standard deviation"]
    model := "binoculars:gpt2|EleutherAI/gpt-neo-125M"
    note := "chunk consistency summary" }

/-! ## The Binoculars chunk score (ai_detector.py lines 356–364)

`ratio = (loss_a - loss_b) / (abs(loss_b) + 1e-6)`;
`raw = 1 / (1 + math.exp(-ratio * 3.0))`; `chunk_score = raw * 100`. -/

/-- The normalized loss ratio, with the `1e-6` guard. -/
noncomputable def ratioOf (loss_a loss_b : ℝ) : ℝ :=
  (loss_a - loss_b) / (|loss_b| + 1/1000000)

/-- One chunk's Binoculars score. -/
noncomputable def binocChunkScore (loss_a loss_b : ℝ) : ℝ :=
  (1 / (1 + Real.exp (-(ratioOf loss_a loss_b) * 3))) * 100

/-- The coefficient of variation the heuristic's check 1 compares against
0.3: `statistics.stdev(lengths) / statistics.mean(lengths)` (0 when the
mean is 0, per the code's conditional). -/
noncomputable def sentenceCV (text : String) : ℝ :=
  Real.sqrt ((sampleVar (sentenceLengths text) : ℚ) : ℝ)
    / ((qmean (sentenceLengths text) : ℚ) : ℝ)

/-! ## `analyze_ai_likelihood` (ai_detector.py lines 523–648)

The entry point.  The advanced-detection attempt (lines 585–619) is a
`try`-block whose settled outcome enters as the `advanced` parameter: `none`
models every path that clears `advanced_result` (ImportError, any exception,
`ALLOW_ADVANCED=0`).  A returned advanced result whose model tag is
`statistical_heuristics` is likewise discarded (lines 597–600).  The
`_debug` dictionary is diagnostic only and is omitted.  The `None` input of
the `if not text` guard is modelled by an `Option String` input. -/

structure AnalyzeResult where
  ai_likelihood : ℚ
  confidence : ℚ
  indicators : List String
  error : Option String := none
  model : Option String := none
  note : Option String := none
  heuristic_score : Option ℚ := none
  heuristic_indicators : Option (List String) := none
  heuristic_model : Option String := none
  roberta_score : Option ℚ := none
  binoculars_score : Option ℚ := none
deriving DecidableEq

/-- Lines 565–571: the short-input gate's result. -/
def shortInputResult : AnalyzeResult :=
  { error := some "Text too short for AI detection"
    ai_likelihood := 50
    confidence := 0
    indicators := [] }

/-- The entry point; `advanced` is the settled outcome of the advanced
detection attempt (see the section comment). -/
def analyze_ai_likelihood (advanced : Option DetectorResult)
    (text : Option String) : AnalyzeResult :=
  match text with
  | none => shortInputResult
  | some t =>
    if (pyStrip t.data).length < 50 then shortInputResult
    else
      match (match advanced with
             | some r =>
               if r.model = "statistical_heuristics" then none else some r
             | none => none : Option DetectorResult) with
      | some a =>
        { ai_likelihood := a.ai_likelihood
          confidence := a.confidence
          indicators := a.indicators
          model := some a.model
          note := some a.note
          heuristic_score := some (detect_ai_content_simple t).ai_likelihood
          heuristic_indicators := some (detect_ai_content_simple t).indicators
          heuristic_model := some (detect_ai_content_simple t).model
          roberta_score := a.roberta_score
          binoculars_score := a.binoculars_score }
      | none =>
        { ai_likelihood := (detect_ai_content_simple t).ai_likelihood
          confidence := (detect_ai_content_simple t).confidence
          indicators := (detect_ai_content_simple t).indicators
          model := some (detect_ai_content_simple t).model
          note := some (detect_ai_content_simple t).note }

/-- A text with three equal sentences (coefficient of variation 0), but only
three `'.'`-split parts. -/
def uniformText : String := "a b c. a b c. a b c"

/-- A text with four equal sentences (coefficient of variation 0). -/
def uniformText4 : String := "a b c d. a b c d. a b c d. a b c d"

/-- The `[0,100]` / `[0,1]` ranges for a result's score and confidence. -/
def scoreConfInRange (r : DetectorResult) : Prop :=
  0 ≤ r.ai_likelihood ∧ r.ai_likelihood ≤ 100 ∧
  0 ≤ r.confidence ∧ r.confidence ≤ 1

/-! ## The model cache under concurrency (ai_detector.py lines 51–90)

`get_cached_model` is check-then-act on the module dictionary
`_MODEL_CACHE`: test `model_name not in _MODEL_CACHE` (check), perform the
expensive load — during which the GIL is released for I/O and native code —
(load), then write `_MODEL_CACHE[model_name] = ...` (store).  Two threads
calling it for the same missing key interleave at these three points; there
is no lock.  The state records whether the key is cached, how many
underlying loads ran, and each thread's program counter. -/

inductive CachePC
  | check
  | load
  | store
  | done
deriving DecidableEq

structure CacheState where
  cached : Bool
  loads : Nat
  pc1 : CachePC
  pc2 : CachePC
deriving DecidableEq

/-- One interleaving step of two threads executing `get_cached_model` for
the same (initially absent) key. -/
inductive cacheStep : CacheState → CacheState → Prop
  | check1_hit (l p2) : cacheStep ⟨true, l, .check, p2⟩ ⟨true, l, .done, p2⟩
  | check1_miss (l p2) : cacheStep ⟨false, l, .check, p2⟩ ⟨false, l, .load, p2⟩
  | load1 (c l p2) : cacheStep ⟨c, l, .load, p2⟩ ⟨c, l + 1, .store, p2⟩
  | store1 (c l p2) : cacheStep ⟨c, l, .store, p2⟩ ⟨true, l, .done, p2⟩
  | check2_hit (l p1) : cacheStep ⟨true, l, p1, .check⟩ ⟨true, l, p1, .done⟩
  | check2_miss (l p1) : cacheStep ⟨false, l, p1, .check⟩ ⟨false, l, p1, .load⟩
  | load2 (c l p1) : cacheStep ⟨c, l, p1, .load⟩ ⟨c, l + 1, p1, .store⟩
  | store2 (c l p1) : cacheStep ⟨c, l, p1, .store⟩ ⟨true, l, p1, .done⟩

/-- Both threads about to make their first request; key absent. -/
def cacheInit : CacheState := ⟨false, 0, .check, .check⟩

/-- Reachability under interleaving. -/
def cacheReach : CacheState → CacheState → Prop :=
  Relation.ReflTransGen cacheStep

/-- Upper bound on the loads a thread at a given point can have performed. -/
def pcLoadBound : CachePC → Nat
  | .check => 0
  | .load => 0
  | .store => 1
  | .done => 1

/-! # Theorems -/

/-! ## Tokenizer lemmas -/

theorem tokAux_append_word (rest : List Char) :
    ∀ (w acc : List Char), (∀ c ∈ w, isWs c = false) →
      tokAux (w ++ rest) acc = tokAux rest (w.reverse ++ acc) := by
  intro w
  induction w with
  | nil => intro acc _; simp
  | cons c w ih =>
    intro acc hw
    have hc : isWs c = false := hw c (by simp)
    simp only [List.cons_append, tokAux, hc, Bool.false_eq_true, if_false, List.append_eq]
    rw [ih (c :: acc) (fun x hx => hw x (by simp [hx]))]
    simp [List.append_assoc]

theorem tokAux_nil_acc (acc : List Char) (h : acc ≠ []) :
    tokAux [] acc = [acc.reverse] := by
  simp [tokAux, h]

theorem isWs_space : isWs ' ' = true := rfl

theorem tokAux_space (rest : List Char) (acc : List Char) (h : acc ≠ []) :
    tokAux (' ' :: rest) acc = acc.reverse :: tokAux rest [] := by
  simp [tokAux, isWs_space, h]

/-- A list of nonempty whitespace-free words tokenizes back to itself after
joining with single spaces: `' '.join(ws).split() == ws`. -/
theorem tokenize_pyjoinL (ws : List (List Char))
    (h : ∀ w ∈ ws, w ≠ [] ∧ ∀ c ∈ w, isWs c = false) :
    tokenize (pyjoinL ws) = ws := by
  induction ws with
  | nil => rfl
  | cons w ws ih =>
    obtain ⟨hw, hwf⟩ := h w (by simp)
    cases ws with
    | nil =>
      show tokAux (pyjoinL [w]) [] = [w]
      have : pyjoinL [w] = w ++ [] := by simp [pyjoinL]
      rw [this, tokAux_append_word [] w [] hwf, tokAux_nil_acc]
      · simp
      · simp [hw]
    | cons w' ws' =>
      show tokAux (pyjoinL (w :: w' :: ws')) [] = w :: w' :: ws'
      have hjoin : pyjoinL (w :: w' :: ws') = w ++ ' ' :: pyjoinL (w' :: ws') := rfl
      rw [hjoin, tokAux_append_word _ w [] hwf]
      rw [List.append_nil, tokAux_space _ _ (by simp [hw])]
      rw [List.reverse_reverse]
      have := ih (fun x hx => h x (by simp [hx]))
      exact congrArg (w :: ·) this

theorem pysplit_pyjoin (ws : List (List Char))
    (h : ∀ w ∈ ws, w ≠ [] ∧ ∀ c ∈ w, isWs c = false) :
    pysplit (pyjoin ws) = ws :=
  tokenize_pyjoinL ws h

/-- Every word produced by the tokenizer is nonempty and whitespace-free. -/
theorem tokAux_wf : ∀ (l acc : List Char), (∀ c ∈ acc, isWs c = false) →
    ∀ w ∈ tokAux l acc, w ≠ [] ∧ ∀ c ∈ w, isWs c = false := by
  intro l
  induction l with
  | nil =>
    intro acc hacc w hw
    by_cases h : acc.isEmpty
    · simp [tokAux, h] at hw
    · simp [tokAux, h] at hw
      subst hw
      refine ⟨by simpa using (by simpa [List.isEmpty_iff] using h), ?_⟩
      intro c hc
      exact hacc c (by simpa using hc)
  | cons c cs ih =>
    intro acc hacc w hw
    by_cases hws : isWs c
    · simp only [tokAux, hws, if_true] at hw
      by_cases hemp : acc.isEmpty
      · rw [if_pos hemp] at hw
        exact ih [] (by simp) w hw
      · rw [if_neg hemp] at hw
        rcases List.mem_cons.mp hw with h1 | h2
        · subst h1
          refine ⟨by simpa [List.isEmpty_iff] using hemp, ?_⟩
          intro x hx
          exact hacc x (by simpa using hx)
        · exact ih [] (by simp) w h2
    · simp only [tokAux, hws, Bool.false_eq_true, if_false] at hw
      refine ih (c :: acc) ?_ w hw
      intro x hx
      rcases List.mem_cons.mp hx with h1 | h2
      · subst h1; simpa using hws
      · exact hacc x h2

theorem tokenize_wf (l : List Char) :
    ∀ w ∈ tokenize l, w ≠ [] ∧ ∀ c ∈ w, isWs c = false :=
  tokAux_wf l [] (by simp)

/-! ## Chunker lemmas -/

theorem slide_nil (cs s : Nat) : slide cs s [] = [] := by
  rw [slide]; rfl

theorem slide_cons (cs s : Nat) (ws : List (List Char)) (h : ws ≠ []) :
    slide cs s ws = ws.take cs :: slide cs s (ws.drop (max s 1)) := by
  rw [slide]
  simp [List.isEmpty_iff, h]

/-- Ceiling-division recurrence used to peel one window off `pyrange`. -/
theorem ceil_div_succ (n s : Nat) (hs : 0 < s) (hn : 0 < n) :
    (n + s - 1) / s = (n - s + s - 1) / s + 1 := by
  rcases le_or_lt n s with h | h
  · have h1 : n - s = 0 := Nat.sub_eq_zero_of_le h
    rw [h1]
    have : (0 + s - 1) / s = 0 := Nat.div_eq_of_lt (by omega)
    rw [this]
    exact Nat.div_eq_of_lt_le (by omega) (by omega)
  · have : n + s - 1 = (n - s + s - 1) + s := by omega
    rw [this, Nat.add_div_right _ hs]

theorem map_drop_range' (cs s : Nat) (ws : List (List Char)) :
    ∀ (m a : Nat),
      (List.range' (a + s) m s).map (fun i => (ws.drop i).take cs)
        = (List.range' a m s).map (fun i => ((ws.drop s).drop i).take cs) := by
  intro m
  induction m with
  | zero => intro a; simp
  | succ m ih =>
    intro a
    rw [List.range'_succ, List.range'_succ, List.map_cons, List.map_cons]
    congr 1
    · have hdd : (ws.drop s).drop a = ws.drop (a + s) := by
        rw [List.drop_drop, Nat.add_comm]
      rw [hdd]
    · exact ih (a + s)

/-- The `range`-based window enumeration of `chunk_text` equals the spec's
sliding-window recursion. -/
theorem pyrange_map_eq_slide (cs s : Nat) (hs : 0 < s) :
    ∀ (n : Nat) (ws : List (List Char)), ws.length = n →
      (pyrange ws.length s).map (fun i => (ws.drop i).take cs) = slide cs s ws := by
  intro n
  induction n using Nat.strong_induction_on with
  | _ n ih =>
    intro ws hn
    rcases eq_or_ne ws [] with hws | hne
    · subst hws
      have h0 : (s - 1) / s = 0 := Nat.div_eq_of_lt (by omega)
      simp [pyrange, slide_nil, h0]
    · have hpos : 0 < ws.length := List.length_pos.mpr hne
      rw [slide_cons cs s ws hne]
      have hmax : max s 1 = s := Nat.max_eq_left hs
      rw [hmax]
      unfold pyrange
      rw [ceil_div_succ ws.length s hs hpos]
      rw [List.range'_succ, List.map_cons]
      congr 1
      have hshift := map_drop_range' cs s ws ((ws.length - s + s - 1) / s) 0
      simp only [Nat.zero_add] at hshift ⊢
      rw [hshift]
      have hlen : (ws.drop s).length = ws.length - s := by simp
      have hrec := ih (ws.length - s) (by omega) (ws.drop s) hlen
      unfold pyrange at hrec
      rw [hlen] at hrec
      exact hrec

/-- Unconditional characterization of the long-text branch of `chunk_text` in
terms of the spec's sliding windows. -/
theorem chunk_text_long (text : String) (cs ov : Nat)
    (hov : ov < cs) (hlong : cs < (pysplit text).length) :
    chunk_text text cs ov
      = some (((slide cs (cs - ov) (pysplit text)).filter
          (fun c => 50 ≤ c.length)).map pyjoin) := by
  have h1 : ¬ (pysplit text).length ≤ cs := by omega
  have h2 : ¬ cs = ov := by omega
  have h3 : ¬ cs < ov := by omega
  simp only [chunk_text]
  rw [if_neg h1, if_neg h2, if_neg h3,
    pyrange_map_eq_slide cs (cs - ov) (by omega) (pysplit text).length (pysplit text) rfl]

/-- The short-text branch of `chunk_text`: at most `chunk_size` words means a
single chunk, the original text itself. -/
theorem chunk_text_short (text : String) (cs ov : Nat)
    (h : (pysplit text).length ≤ cs) : chunk_text text cs ov = some [text] := by
  simp [chunk_text, h]

/-- Every window produced by `slide` has at most `cs` words, and all of its
words come from the input word list. -/
theorem mem_slide (cs s : Nat) : ∀ (n : Nat) (ws : List (List Char)), ws.length = n →
    ∀ w ∈ slide cs s ws, w.length ≤ cs ∧ ∀ x ∈ w, x ∈ ws := by
  intro n
  induction n using Nat.strong_induction_on with
  | _ n ih =>
    intro ws hn w hw
    rcases eq_or_ne ws [] with hws | hne
    · subst hws; rw [slide_nil] at hw; simp at hw
    · rw [slide_cons cs s ws hne] at hw
      rcases List.mem_cons.mp hw with h1 | h2
      · subst h1
        exact ⟨by simp, fun x hx => List.mem_of_mem_take hx⟩
      · have hpos : 0 < ws.length := List.length_pos.mpr hne
        have hlt : (ws.drop (max s 1)).length < n := by
          simp only [List.length_drop]
          omega
        obtain ⟨hlen, hsub⟩ := ih _ hlt (ws.drop (max s 1)) rfl w h2
        exact ⟨hlen, fun x hx => List.mem_of_mem_drop (hsub x hx)⟩

/-- On a word list of exactly 401 words, the 400/100 configuration slides two
windows: words 0–399 and words 300–400. -/
theorem slide_401 (ws : List (List Char)) (h : ws.length = 401) :
    slide 400 300 ws = [ws.take 400, (ws.drop 300).take 400] := by
  have h1 : ws ≠ [] := by intro h0; rw [h0] at h; simp at h
  have h2 : ws.drop (max 300 1) = ws.drop 300 := by norm_num
  have h3 : (ws.drop 300).length = 101 := by simp [h]
  have h4 : ws.drop 300 ≠ [] := by
    intro h0; rw [h0] at h3; simp at h3
  have h5 : (ws.drop 300).drop (max 300 1) = [] := by
    rw [show max 300 1 = 300 from by norm_num]
    rw [← List.length_eq_zero]
    simp [h]
  rw [slide_cons _ _ _ h1, h2, slide_cons _ _ _ h4, h5, slide_nil]

/-- On a word list of exactly 701 words, the 700/150 configuration slides two
windows: words 0–699 and words 550–700. -/
theorem slide_701 (ws : List (List Char)) (h : ws.length = 701) :
    slide 700 550 ws = [ws.take 700, (ws.drop 550).take 700] := by
  have h1 : ws ≠ [] := by intro h0; rw [h0] at h; simp at h
  have h2 : ws.drop (max 550 1) = ws.drop 550 := by norm_num
  have h3 : (ws.drop 550).length = 151 := by simp [h]
  have h4 : ws.drop 550 ≠ [] := by
    intro h0; rw [h0] at h3; simp at h3
  have h5 : (ws.drop 550).drop (max 550 1) = [] := by
    rw [show max 550 1 = 550 from by norm_num]
    rw [← List.length_eq_zero]
    simp [h]
  rw [slide_cons _ _ _ h1, h2, slide_cons _ _ _ h4, h5, slide_nil]

theorem replicate_w_wf (n : Nat) :
    ∀ w ∈ List.replicate n ['w'], w ≠ [] ∧ ∀ c ∈ w, isWs c = false := by
  intro w hw
  rw [List.eq_of_mem_replicate hw]
  exact ⟨by simp, by decide⟩

theorem pysplit_text401 : pysplit text401 = List.replicate 401 ['w'] :=
  pysplit_pyjoin _ (replicate_w_wf 401)

theorem pysplit_text701 : pysplit text701 = List.replicate 701 ['w'] :=
  pysplit_pyjoin _ (replicate_w_wf 701)

/-- The two chunks `chunk_text` produces on the 401-word text with the
RoBERTa configuration (400 words, 100 overlap). -/
theorem chunk_text_text401 :
    chunk_text text401 400 100
      = some [pyjoin (List.replicate 400 ['w']), pyjoin (List.replicate 101 ['w'])] := by
  have hlen : (pysplit text401).length = 401 := by
    rw [pysplit_text401, List.length_replicate]
  rw [chunk_text_long _ 400 100 (by norm_num) (by rw [hlen]; norm_num)]
  rw [pysplit_text401, slide_401 _ (by rw [List.length_replicate])]
  rw [List.take_replicate, List.drop_replicate, List.take_replicate]
  norm_num

/-- The two chunks `chunk_text` produces on the 701-word text with the
Binoculars configuration (700 words, 150 overlap). -/
theorem chunk_text_text701 :
    chunk_text text701 700 150
      = some [pyjoin (List.replicate 700 ['w']), pyjoin (List.replicate 151 ['w'])] := by
  have hlen : (pysplit text701).length = 701 := by
    rw [pysplit_text701, List.length_replicate]
  rw [chunk_text_long _ 700 150 (by norm_num) (by rw [hlen]; norm_num)]
  rw [pysplit_text701, slide_701 _ (by rw [List.length_replicate])]
  rw [List.take_replicate, List.drop_replicate, List.take_replicate]
  norm_num

/-- C5: short texts come back as a single whole-text chunk; long texts are
windowed at stride `chunkSize - overlap` with sub-50-word windows discarded;
and a text of exactly `chunkSize + 1` words yields at least two chunks under
both configured parameter pairs (400/100 and 700/150). -/
theorem chunk_text_windows_correct :
    (∀ (text : String) (cs ov : Nat), (pysplit text).length ≤ cs →
        chunk_text text cs ov = some [text]) ∧
    (∀ (text : String) (cs ov : Nat), ov < cs → cs < (pysplit text).length →
        chunk_text text cs ov
          = some (((slide cs (cs - ov) (pysplit text)).filter
              (fun c => 50 ≤ c.length)).map pyjoin)) ∧
    (∀ text : String, (pysplit text).length = 401 →
        ∃ l, chunk_text text 400 100 = some l ∧ 2 ≤ l.length) ∧
    (∀ text : String, (pysplit text).length = 701 →
        ∃ l, chunk_text text 700 150 = some l ∧ 2 ≤ l.length) := by
  refine ⟨chunk_text_short, chunk_text_long, ?_, ?_⟩
  · intro text h
    refine ⟨_, chunk_text_long text 400 100 (by norm_num) (by omega), ?_⟩
    rw [slide_401 _ h]
    have l1 : ((pysplit text).take 400).length = 400 := by simp [h]
    have l2 : (((pysplit text).drop 300).take 400).length = 101 := by simp [h]
    simp [List.filter_cons, l1, l2]
  · intro text h
    refine ⟨_, chunk_text_long text 700 150 (by norm_num) (by omega), ?_⟩
    rw [slide_701 _ h]
    have l1 : ((pysplit text).take 700).length = 700 := by simp [h]
    have l2 : (((pysplit text).drop 550).take 700).length = 151 := by simp [h]
    simp [List.filter_cons, l1, l2]

/-- Witness for C5: concrete instances — a 1-word text under 400/100 returns
itself as the single chunk; the concrete 401- and 701-word texts produce at
least two chunks. -/
theorem chunk_text_windows_correct_witness :
    chunk_text "hello" 400 100 = some ["hello"] ∧
    chunk_text "a b" 1 0
      = some (((slide 1 1 (pysplit "a b")).filter
          (fun c => 50 ≤ c.length)).map pyjoin) ∧
    (∃ l, chunk_text text401 400 100 = some l ∧ 2 ≤ l.length) ∧
    (∃ l, chunk_text text701 700 150 = some l ∧ 2 ≤ l.length) := by
  refine ⟨?_, ?_, ?_, ?_⟩
  · exact chunk_text_windows_correct.1 "hello" 400 100 (by decide)
  · have h := chunk_text_windows_correct.2.1 "a b" 1 0 (by decide) (by decide)
    simpa using h
  · exact chunk_text_windows_correct.2.2.1 text401
      (by rw [pysplit_text401, List.length_replicate])
  · exact chunk_text_windows_correct.2.2.2 text701
      (by rw [pysplit_text701, List.length_replicate])

/-- C10: on long inputs (more words than `chunkSize`, with `chunkSize ≥ 50`
and `overlap < chunkSize`), every chunk returned by `chunk_text` contains at
least 50 and at most `chunkSize` words. -/
theorem chunk_text_chunk_word_bounds :
    ∀ (text : String) (cs ov : Nat), 50 ≤ cs → ov < cs →
      cs < (pysplit text).length →
      ∀ c ∈ (chunk_text text cs ov).getD [],
        50 ≤ (pysplit c).length ∧ (pysplit c).length ≤ cs := by
  intro text cs ov _ hov hlong c hc
  rw [chunk_text_long text cs ov hov hlong] at hc
  simp only [Option.getD_some, List.mem_map, List.mem_filter] at hc
  obtain ⟨w, ⟨hwslide, hwlen⟩, rfl⟩ := hc
  have hwlen' : 50 ≤ w.length := by simpa using hwlen
  obtain ⟨hlen, hsub⟩ :=
    mem_slide cs (cs - ov) (pysplit text).length (pysplit text) rfl w hwslide
  have hwf : ∀ x ∈ w, x ≠ [] ∧ ∀ ch ∈ x, isWs ch = false := fun x hx =>
    tokenize_wf text.data x (hsub x hx)
  rw [pysplit_pyjoin w hwf]
  exact ⟨hwlen', hlen⟩

/-- Witness for C10: the first chunk of the concrete 401-word text under the
400/100 configuration has between 50 and 400 words. -/
theorem chunk_text_chunk_word_bounds_witness :
    50 ≤ (pysplit (pyjoin (List.replicate 400 ['w']))).length ∧
      (pysplit (pyjoin (List.replicate 400 ['w']))).length ≤ 400 := by
  refine chunk_text_chunk_word_bounds text401 400 100 (by norm_num) (by norm_num)
    (by rw [pysplit_text401, List.length_replicate]; norm_num) _ ?_
  rw [chunk_text_text401, Option.getD_some]
  exact List.mem_cons_self _ _

/-! ## Rounding lemmas -/

theorem roundHalfEven_nonneg (x : ℚ) (hx : 0 ≤ x) : 0 ≤ roundHalfEven x := by
  have hf : (0:ℤ) ≤ ⌊x⌋ := Int.floor_nonneg.mpr hx
  unfold roundHalfEven
  split
  · exact hf
  · split
    · omega
    · split
      · exact hf
      · omega

theorem roundHalfEven_le (x : ℚ) (B : ℤ) (hx : x ≤ B) : roundHalfEven x ≤ B := by
  have hfB : ⌊x⌋ ≤ B := by
    have h1 : ⌊x⌋ ≤ ⌊(B:ℚ)⌋ := Int.floor_le_floor hx
    rwa [Int.floor_intCast] at h1
  have hfx : (⌊x⌋ : ℚ) ≤ x := Int.floor_le x
  unfold roundHalfEven
  split
  · exact hfB
  · rename_i h1
    push_neg at h1
    have hlt : ⌊x⌋ < B := by
      have : (⌊x⌋ : ℚ) + 1/2 ≤ x := by linarith
      have hq : (⌊x⌋ : ℚ) < (B : ℚ) := by linarith
      exact_mod_cast hq
    split
    · omega
    · split
      · exact hfB
      · omega

theorem round2_bounds (x : ℚ) (h0 : 0 ≤ x) (h100 : x ≤ 100) :
    0 ≤ round2 x ∧ round2 x ≤ 100 := by
  have hge : (0:ℤ) ≤ roundHalfEven (x * 100) :=
    roundHalfEven_nonneg _ (by linarith)
  have hle : roundHalfEven (x * 100) ≤ (10000 : ℤ) :=
    roundHalfEven_le _ 10000 (by push_cast; linarith)
  constructor
  · unfold round2
    positivity
  · unfold round2
    rw [div_le_iff₀ (by norm_num)]
    have : ((roundHalfEven (x * 100) : ℚ)) ≤ (10000 : ℚ) := by exact_mod_cast hle
    linarith

/-! ## C2: the ensemble combination -/

/-- Counterexample to C2 as stated: with classifier score 80.01 and
perplexity score 50, the code returns `round(68.006, 2) = 68.01`, not the
exact weighted sum `0.6·80.01 + 0.4·50 = 68.006`. -/
theorem combine_rounds_counterexample :
    robertaCex.ai_likelihood = 8001/100 ∧ binocularsCex.ai_likelihood = 50 ∧
    (combineResults robertaCex binocularsCex).ai_likelihood
      ≠ robertaCex.ai_likelihood * (6/10) + binocularsCex.ai_likelihood * (4/10) := by
  refine ⟨rfl, rfl, ?_⟩
  show round2 (8001/100 * (6/10) + 50 * (4/10)) ≠ _
  have hfl : ⌊((8001/100 * (6/10) + 50 * (4/10)) * 100 : ℚ)⌋ = 6800 := by
    rw [Int.floor_eq_iff]
    norm_num
  unfold round2 roundHalfEven
  rw [hfl]
  norm_num [robertaCex, binocularsCex]

/-- C2 (amended): whenever both detectors produce a result, the combined
score is `0.6·classifier + 0.4·perplexity` rounded to two decimal places
(Python banker's rounding), the confidence is exactly 0.92, and the
indicators are the classifier's followed by the perplexity detector's; for
scores 80 and 50 the combined score is exactly 68. -/
theorem combine_weighted_ensemble :
    (∀ r b : DetectorResult,
        (combineResults r b).ai_likelihood
          = round2 (r.ai_likelihood * (6/10) + b.ai_likelihood * (4/10)) ∧
        (combineResults r b).confidence = 92/100 ∧
        (combineResults r b).indicators = r.indicators ++ b.indicators) ∧
    (∀ r b : DetectorResult, r.ai_likelihood = 80 → b.ai_likelihood = 50 →
        (combineResults r b).ai_likelihood = 68) := by
  constructor
  · intro r b
    exact ⟨rfl, rfl, rfl⟩
  · intro r b hr hb
    show round2 (r.ai_likelihood * (6/10) + b.ai_likelihood * (4/10)) = 68
    rw [hr, hb]
    have hfl : ⌊((80 * (6/10) + 50 * (4/10)) * 100 : ℚ)⌋ = 6800 := by
      rw [Int.floor_eq_iff]
      norm_num
    unfold round2 roundHalfEven
    rw [hfl]
    norm_num

/-- Witness for C2 (amended), at concrete results with scores 80 and 50. -/
theorem combine_weighted_ensemble_witness :
    (combineResults
        { robertaCex with ai_likelihood := 80 }
        { binocularsCex with ai_likelihood := 50 }).ai_likelihood = 68 :=
  combine_weighted_ensemble.2
    { robertaCex with ai_likelihood := 80 }
    { binocularsCex with ai_likelihood := 50 } rfl rfl

/-! ## C3: the double-failure fallback chain -/

/-- C3: when both model detectors fail, the ensemble returns the heuristic
result: model tag `statistical_heuristics` with confidence 0.7, or — when
the heuristic raises internally (`statistics.stdev` on one data point) —
likelihood 50, confidence 0.3 and the `fallback` tag. -/
theorem both_fail_heuristic_fallback (text : String) :
    detect_ai_content_advanced none none text = detect_ai_content_simple text ∧
    (simpleRaises text = false →
      (detect_ai_content_advanced none none text).model = "statistical_heuristics" ∧
      (detect_ai_content_advanced none none text).confidence = 7/10) ∧
    (simpleRaises text = true →
      (detect_ai_content_advanced none none text).ai_likelihood = 50 ∧
      (detect_ai_content_advanced none none text).confidence = 3/10 ∧
      (detect_ai_content_advanced none none text).model = "fallback") := by
  refine ⟨rfl, ?_, ?_⟩
  · intro h
    show (detect_ai_content_simple text).model = _ ∧
      (detect_ai_content_simple text).confidence = _
    unfold detect_ai_content_simple
    rw [h]
    exact ⟨rfl, rfl⟩
  · intro h
    refine ⟨?_, ?_, ?_⟩ <;>
      · show _
        unfold detect_ai_content_advanced detect_ai_content_simple
        rw [h]
        rfl

/-- Witness for C3: a text on which the heuristic succeeds (model
`statistical_heuristics`, confidence 0.7) and one on which
`statistics.stdev` raises (score 50, confidence 0.3, `fallback`). -/
theorem both_fail_heuristic_fallback_witness :
    ((detect_ai_content_advanced none none "hello world.").model
        = "statistical_heuristics" ∧
      (detect_ai_content_advanced none none "hello world.").confidence = 7/10) ∧
    ((detect_ai_content_advanced none none "x. . . .").ai_likelihood = 50 ∧
      (detect_ai_content_advanced none none "x. . . .").confidence = 3/10 ∧
      (detect_ai_content_advanced none none "x. . . .").model = "fallback") :=
  ⟨(both_fail_heuristic_fallback "hello world.").2.1 (by decide),
   (both_fail_heuristic_fallback "x. . . .").2.2 (by decide)⟩

/-! ## Averages -/

theorem list_sum_le (l : List ℚ) (hi : ℚ) (h : ∀ x ∈ l, x ≤ hi) :
    l.sum ≤ l.length * hi := by
  induction l with
  | nil => simp
  | cons a t ih =>
    have ha := h a (by simp)
    have ht := ih (fun x hx => h x (by simp [hx]))
    simp only [List.sum_cons, List.length_cons]
    push_cast
    rw [add_one_mul]
    linarith

theorem le_list_sum (l : List ℚ) (lo : ℚ) (h : ∀ x ∈ l, lo ≤ x) :
    l.length * lo ≤ l.sum := by
  induction l with
  | nil => simp
  | cons a t ih =>
    have ha := h a (by simp)
    have ht := ih (fun x hx => h x (by simp [hx]))
    simp only [List.sum_cons, List.length_cons]
    push_cast
    rw [add_one_mul]
    linarith

theorem avgOf_bounds (l : List ℚ) (hne : l ≠ []) (lo hi : ℚ)
    (h : ∀ x ∈ l, lo ≤ x ∧ x ≤ hi) : lo ≤ avgOf l ∧ avgOf l ≤ hi := by
  have hlen : 0 < (l.length : ℚ) := by
    have := List.length_pos.mpr hne
    exact_mod_cast this
  unfold avgOf
  constructor
  · rw [le_div_iff₀ hlen]
    have := le_list_sum l lo (fun x hx => (h x hx).1)
    linarith [this]
  · rw [div_le_iff₀ hlen]
    have := list_sum_le l hi (fun x hx => (h x hx).2)
    linarith [this]

/-! ## C6: score and confidence ranges on every path -/

/-- C6: every result shape the pipeline can return keeps `ai_likelihood` in
[0,100] and `confidence` in [0,1]: the classifier aggregation over softmax
chunk probabilities, each Binoculars chunk score, the Binoculars
aggregation, the combined ensemble result, the heuristic (both its success
and its internal-error path), and the short-input gate. -/
theorem pipeline_scores_in_range :
    (∀ probs : List ℚ, probs ≠ [] → (∀ p ∈ probs, 0 ≤ p ∧ p ≤ 1) →
        scoreConfInRange (robertaAggregate probs)) ∧
    (∀ loss_a loss_b : ℝ,
        0 ≤ binocChunkScore loss_a loss_b ∧ binocChunkScore loss_a loss_b ≤ 100) ∧
    (∀ cscores : List ℚ, cscores ≠ [] → (∀ x ∈ cscores, 0 ≤ x ∧ x ≤ 100) →
        scoreConfInRange (binocularsAggregate cscores)) ∧
    (∀ r b : DetectorResult, scoreConfInRange r → scoreConfInRange b →
        scoreConfInRange (combineResults r b)) ∧
    (∀ t : String, scoreConfInRange (detect_ai_content_simple t)) ∧
    (0 ≤ shortInputResult.ai_likelihood ∧ shortInputResult.ai_likelihood ≤ 100 ∧
      0 ≤ shortInputResult.confidence ∧ shortInputResult.confidence ≤ 1) := by
  refine ⟨?_, ?_, ?_, ?_, ?_, ?_⟩
  · intro probs hne hp
    have hmap : probs.map (fun p => p * 100) ≠ [] := by
      simpa using hne
    have hbd : ∀ x ∈ probs.map (fun p => p * 100), 0 ≤ x ∧ x ≤ 100 := by
      intro x hx
      simp only [List.mem_map] at hx
      obtain ⟨p, hp', rfl⟩ := hx
      obtain ⟨h0, h1⟩ := hp p hp'
      constructor <;> nlinarith
    obtain ⟨ha, hb⟩ := avgOf_bounds _ hmap 0 100 hbd
    obtain ⟨hr0, hr1⟩ := round2_bounds _ ha hb
    unfold scoreConfInRange robertaAggregate
    refine ⟨hr0, hr1, ?_, ?_⟩
    · split
      · norm_num
      · split <;> norm_num
    · split
      · norm_num
      · split <;> norm_num
  · intro la lb
    have hexp : 0 < Real.exp (-(ratioOf la lb) * 3) := Real.exp_pos _
    unfold binocChunkScore
    constructor
    · positivity
    · have hgt : (1:ℝ) < 1 + Real.exp (-(ratioOf la lb) * 3) := by linarith
      have h1 : 1 / (1 + Real.exp (-(ratioOf la lb) * 3)) ≤ 1 := by
        rw [div_le_one (by linarith)]
        linarith
      nlinarith
  · intro cscores hne hbd
    obtain ⟨ha, hb⟩ := avgOf_bounds _ hne 0 100 hbd
    obtain ⟨hr0, hr1⟩ := round2_bounds _ ha hb
    unfold scoreConfInRange binocularsAggregate
    refine ⟨hr0, hr1, ?_, ?_⟩
    · split
      · norm_num
      · split <;> norm_num
    · split
      · norm_num
      · split <;> norm_num
  · intro r b hr hb
    obtain ⟨hr0, hr1, _, _⟩ := hr
    obtain ⟨hb0, hb1, _, _⟩ := hb
    have h0 : 0 ≤ r.ai_likelihood * (6/10) + b.ai_likelihood * (4/10) := by nlinarith
    have h1 : r.ai_likelihood * (6/10) + b.ai_likelihood * (4/10) ≤ 100 := by nlinarith
    obtain ⟨hc0, hc1⟩ := round2_bounds _ h0 h1
    refine ⟨hc0, hc1, ?_, ?_⟩
    · show (0:ℚ) ≤ 92/100
      norm_num
    · show (92/100 : ℚ) ≤ 1
      norm_num
  · intro t
    unfold scoreConfInRange detect_ai_content_simple
    split
    · norm_num
    · refine ⟨by positivity, ?_, by norm_num, by norm_num⟩
      show ((min 100 (heurScore t) : Nat) : ℚ) ≤ 100
      have : min 100 (heurScore t) ≤ 100 := min_le_left _ _
      exact_mod_cast this
  · norm_num [shortInputResult]

/-- Witness for C6 at concrete inputs: a one-chunk classifier run with
probability 1/2, a one-chunk Binoculars run with score 50, and the
combination of the two concrete detector results. -/
theorem pipeline_scores_in_range_witness :
    scoreConfInRange (robertaAggregate [1/2]) ∧
    scoreConfInRange (binocularsAggregate [50]) ∧
    scoreConfInRange (combineResults robertaCex binocularsCex) :=
  ⟨pipeline_scores_in_range.1 [1/2] (by simp) (by norm_num),
   pipeline_scores_in_range.2.2.1 [50] (by simp) (by norm_num),
   pipeline_scores_in_range.2.2.2.1 robertaCex binocularsCex
     (by norm_num [scoreConfInRange, robertaCex])
     (by norm_num [scoreConfInRange, binocularsCex])⟩

/-! ## C7: the Binoculars chunk score -/

/-- C7: each chunk's score is `100 / (1 + e^(-ratio·3))` with
`ratio = (lossA - lossB) / (|lossB| + 1e-6)`, and for a fixed `lossB` the
score is strictly increasing in `lossA` (hence in `lossA - lossB`): text the
comparison model predicts far better than the baseline scores higher. -/
theorem binoculars_chunk_score_formula :
    (∀ loss_a loss_b : ℝ,
        binocChunkScore loss_a loss_b
          = 100 / (1 + Real.exp (-((loss_a - loss_b) / (|loss_b| + 1/1000000)) * 3))) ∧
    (∀ loss_b loss_a loss_a' : ℝ, loss_a < loss_a' →
        binocChunkScore loss_a loss_b < binocChunkScore loss_a' loss_b) := by
  constructor
  · intro la lb
    unfold binocChunkScore ratioOf
    ring
  · intro lb la la' hlt
    have hd : (0:ℝ) < |lb| + 1/1000000 := by positivity
    have hr : ratioOf la lb < ratioOf la' lb := by
      unfold ratioOf
      rw [div_lt_div_iff_of_pos_right hd]
      linarith
    have hexp : Real.exp (-(ratioOf la' lb) * 3) < Real.exp (-(ratioOf la lb) * 3) :=
      Real.exp_lt_exp.mpr (by linarith)
    have hp2 : 0 < 1 + Real.exp (-(ratioOf la' lb) * 3) := by positivity
    have h3 : 1 / (1 + Real.exp (-(ratioOf la lb) * 3))
        < 1 / (1 + Real.exp (-(ratioOf la' lb) * 3)) :=
      one_div_lt_one_div_of_lt hp2 (by linarith)
    unfold binocChunkScore
    linarith

/-- Witness for C7: equal losses score strictly below `lossA = 1, lossB = 0`. -/
theorem binoculars_chunk_score_formula_witness :
    binocChunkScore 0 0 < binocChunkScore 1 0 :=
  binoculars_chunk_score_formula.2 0 0 1 (by norm_num)

/-! ## C1 and C9: the short-input gate -/

/-- C1: for `None` input or any text with fewer than 50 stripped characters,
`analyze_ai_likelihood` returns the fixed insufficient-input result
(score 50, confidence 0, no indicators) whatever the advanced-detection
outcome would have been — the gate precedes the heuristic call (line 582)
and the advanced attempt (line 594), so neither runs. -/
theorem short_input_gate :
    (∀ advanced : Option DetectorResult,
        analyze_ai_likelihood advanced none = shortInputResult) ∧
    (∀ (advanced : Option DetectorResult) (t : String),
        (pyStrip t.data).length < 50 →
        analyze_ai_likelihood advanced (some t) = shortInputResult) ∧
    shortInputResult.ai_likelihood = 50 ∧ shortInputResult.confidence = 0 ∧
    shortInputResult.indicators = [] := by
  refine ⟨fun _ => rfl, ?_, rfl, rfl, rfl⟩
  intro adv t ht
  simp only [analyze_ai_likelihood]
  rw [if_pos ht]

/-- Witness for C1: `None` input and a concrete 10-character text. -/
theorem short_input_gate_witness :
    analyze_ai_likelihood (some robertaCex) none = shortInputResult ∧
    analyze_ai_likelihood (some robertaCex) (some "Too short.") = shortInputResult :=
  ⟨short_input_gate.1 (some robertaCex),
   short_input_gate.2.1 (some robertaCex) "Too short." (by decide)⟩

/-- C9: the short-input result is the only one carrying an `error` field,
and it carries neither `model` nor `note`; every other result the entry
point returns has `model` and `note` and no `error`. -/
theorem short_input_result_shape :
    (∀ (advanced : Option DetectorResult) (t : String),
        (pyStrip t.data).length < 50 →
        (analyze_ai_likelihood advanced (some t)).error
            = some "Text too short for AI detection" ∧
        (analyze_ai_likelihood advanced (some t)).model = none ∧
        (analyze_ai_likelihood advanced (some t)).note = none) ∧
    (∀ advanced : Option DetectorResult,
        (analyze_ai_likelihood advanced none).error
            = some "Text too short for AI detection" ∧
        (analyze_ai_likelihood advanced none).model = none ∧
        (analyze_ai_likelihood advanced none).note = none) ∧
    (∀ (advanced : Option DetectorResult) (t : String),
        50 ≤ (pyStrip t.data).length →
        (analyze_ai_likelihood advanced (some t)).error = none ∧
        (analyze_ai_likelihood advanced (some t)).model.isSome = true ∧
        (analyze_ai_likelihood advanced (some t)).note.isSome = true) := by
  refine ⟨?_, ?_, ?_⟩
  · intro adv t ht
    simp only [analyze_ai_likelihood]
    rw [if_pos ht]
    exact ⟨rfl, rfl, rfl⟩
  · intro adv
    exact ⟨rfl, rfl, rfl⟩
  · intro adv t ht
    have hn : ¬ (pyStrip t.data).length < 50 := not_lt.mpr ht
    cases adv with
    | none =>
      simp only [analyze_ai_likelihood]
      rw [if_neg hn]
      exact ⟨rfl, rfl, rfl⟩
    | some r =>
      simp only [analyze_ai_likelihood]
      rw [if_neg hn]
      by_cases hm : r.model = "statistical_heuristics"
      · rw [if_pos hm]
        exact ⟨rfl, rfl, rfl⟩
      · rw [if_neg hm]
        exact ⟨rfl, rfl, rfl⟩

/-- Witness for C9: a 10-character text (gate) and a 56-character text with
and without an advanced result. -/
theorem short_input_result_shape_witness :
    ((analyze_ai_likelihood none (some "Too short.")).error
        = some "Text too short for AI detection" ∧
      (analyze_ai_likelihood none (some "Too short.")).model = none ∧
      (analyze_ai_likelihood none (some "Too short.")).note = none) ∧
    ((analyze_ai_likelihood (some robertaCex)
        (some "This input text is long enough to clear the length gate")).error = none ∧
      (analyze_ai_likelihood (some robertaCex)
        (some "This input text is long enough to clear the length gate")).model.isSome = true ∧
      (analyze_ai_likelihood (some robertaCex)
        (some "This input text is long enough to clear the length gate")).note.isSome = true) :=
  ⟨short_input_result_shape.1 none "Too short." (by decide),
   short_input_result_shape.2.2 (some robertaCex)
     "This input text is long enough to clear the length gate" (by decide)⟩

/-! ## C8: the sentence-uniformity bonus -/

theorem mem_dropWhile_ne_nil (p : Char → Bool) :
    ∀ l : List Char, l.dropWhile p ≠ [] → ∃ c ∈ l, p c = false := by
  intro l
  induction l with
  | nil => simp [List.dropWhile]
  | cons c cs ih =>
    intro h
    by_cases hp : p c
    · rw [List.dropWhile_cons_of_pos hp] at h
      obtain ⟨c', hc', hpc'⟩ := ih h
      exact ⟨c', by simp [hc'], hpc'⟩
    · exact ⟨c, by simp, by simpa using hp⟩

theorem pyStrip_ne_nil_exists (s : List Char) (h : pyStrip s ≠ []) :
    ∃ c ∈ s, isWs c = false := by
  unfold pyStrip at h
  have h1 : (s.dropWhile isWs).reverse.dropWhile isWs ≠ [] := by
    intro h0; rw [h0] at h; simp at h
  obtain ⟨c, hc, hpc⟩ := mem_dropWhile_ne_nil isWs _ h1
  rw [List.mem_reverse] at hc
  exact ⟨c, (List.dropWhile_sublist isWs).subset hc, hpc⟩

theorem tokAux_ne_nil : ∀ (l acc : List Char),
    ((∃ c ∈ l, isWs c = false) ∨ acc ≠ []) → tokAux l acc ≠ [] := by
  intro l
  induction l with
  | nil =>
    intro acc h
    rcases h with h | h
    · simp at h
    · simp [tokAux, List.isEmpty_iff, h]
  | cons c cs ih =>
    intro acc h
    by_cases hws : isWs c
    · simp only [tokAux, hws, if_true]
      by_cases hemp : acc.isEmpty
      · rw [if_pos hemp]
        apply ih []
        left
        rcases h with ⟨c', hc', hpc'⟩ | hacc
        · rcases List.mem_cons.mp hc' with h1 | h2
          · subst h1; rw [hws] at hpc'; cases hpc'
          · exact ⟨c', h2, hpc'⟩
        · rw [List.isEmpty_iff] at hemp
          exact absurd hemp hacc
      · rw [if_neg hemp]
        simp
    · simp only [tokAux, hws, Bool.false_eq_true, if_false]
      apply ih (c :: acc)
      right
      simp

theorem sentenceLengths_pos (t : String) : ∀ x ∈ sentenceLengths t, 1 ≤ x := by
  intro x hx
  unfold sentenceLengths at hx
  simp only [List.mem_map, List.mem_filter] at hx
  obtain ⟨s, ⟨_, hstrip⟩, rfl⟩ := hx
  have h1 : pyStrip s ≠ [] := by
    simpa [List.isEmpty_iff] using hstrip
  obtain ⟨c, hc, hpc⟩ := pyStrip_ne_nil_exists s h1
  have h2 : tokenize s ≠ [] := tokAux_ne_nil s [] (Or.inl ⟨c, hc, hpc⟩)
  have := List.length_pos.mpr h2
  omega

theorem qmean_pos (l : List Nat) (hne : l ≠ []) (h1 : ∀ x ∈ l, 1 ≤ x) :
    0 < qmean l := by
  unfold qmean
  have hlen : 0 < l.length := List.length_pos.mpr hne
  have hlenq : (0:ℚ) < l.length := by exact_mod_cast hlen
  apply div_pos _ hlenq
  have hsum := le_list_sum (l.map (fun x : Nat => (x:ℚ))) 1 ?_
  · rw [List.length_map] at hsum
    have heq : ((l.length : ℚ)) * 1 = l.length := by ring
    rw [heq] at hsum
    linarith
  · intro x hx
    simp only [List.mem_map] at hx
    obtain ⟨y, hy, rfl⟩ := hx
    exact_mod_cast h1 y hy

theorem sampleVar_nonneg (l : List Nat) (h2 : 2 ≤ l.length) : 0 ≤ sampleVar l := by
  unfold sampleVar
  apply div_nonneg
  · apply List.sum_nonneg
    intro x hx
    simp only [List.mem_map] at hx
    obtain ⟨y, _, rfl⟩ := hx
    positivity
  · have : (2:ℚ) ≤ l.length := by exact_mod_cast h2
    linarith

/-- For a nonnegative variance and positive mean, the code's test
`stdev/mean < 0.3` is exactly `var·100 < 9·mean²`. -/
theorem cv_lt_iff (v m : ℚ) (_hv : 0 ≤ v) (hm : 0 < m) :
    (Real.sqrt ((v:ℚ):ℝ) / ((m:ℚ):ℝ) < 3/10) ↔ v * 100 < 9 * m^2 := by
  have hm' : (0:ℝ) < (m:ℝ) := by exact_mod_cast hm
  rw [div_lt_iff₀ hm']
  rw [Real.sqrt_lt' (by positivity)]
  constructor
  · intro h
    have h' : (v:ℝ) * 100 < 9 * (m:ℝ)^2 := by nlinarith
    exact_mod_cast h'
  · intro h
    have h' : (v:ℝ) * 100 < 9 * (m:ℝ)^2 := by exact_mod_cast h
    nlinarith

/-- Counterexample to C8 as stated: a three-sentence text whose sentence
lengths have coefficient of variation 0 (< 0.3), for which the code adds no
uniformity bonus — the check only runs when the `'.'`-split has more than 3
parts (line 147). -/
theorem uniform_sentences_counterexample :
    sentenceCV uniformText < 3/10 ∧
    "Low sentence length variance" ∉ (detect_ai_content_simple uniformText).indicators := by
  constructor
  · have hsl : sentenceLengths uniformText = [3, 3, 3] := by decide
    have hv : sampleVar [3, 3, 3] = 0 := by
      norm_num [sampleVar, qmean]
    unfold sentenceCV
    rw [hsl, hv]
    push_cast
    rw [Real.sqrt_zero]
    norm_num [qmean]
  · decide

/-- C8 (amended): on texts whose `'.'`-split has more than 3 parts and at
least two nonempty sentences, a sentence-length coefficient of variation
below 0.3 makes the heuristic add its 30-point uniformity bonus and append
the sentence-uniformity indicator. -/
theorem uniform_sentences_bonus (t : String)
    (hs : 3 < (sentences t).length)
    (hl : 2 ≤ (sentenceLengths t).length)
    (hcv : sentenceCV t < 3/10) :
    check1 t = true ∧
    heurScore t = 30 + ((if check2 t then 25 else 0) + (if check3 t then 20 else 0)
      + (if check4 t then 15 else 0) + (if check5 t then 10 else 0)) ∧
    "Low sentence length variance" ∈ (detect_ai_content_simple t).indicators := by
  have hne : sentenceLengths t ≠ [] := by
    intro h0; rw [h0] at hl; simp at hl
  have hmean : 0 < qmean (sentenceLengths t) :=
    qmean_pos _ hne (sentenceLengths_pos t)
  have hvar : 0 ≤ sampleVar (sentenceLengths t) := sampleVar_nonneg _ hl
  have hcv' : sampleVar (sentenceLengths t) * 100
      < 9 * (qmean (sentenceLengths t))^2 := by
    rw [← cv_lt_iff _ _ hvar hmean]
    exact hcv
  have hc1 : check1 t = true := by
    unfold check1
    rw [if_pos hmean]
    simp only [Bool.and_eq_true, decide_eq_true_eq]
    exact ⟨⟨hs, hne⟩, hcv'⟩
  have hr : simpleRaises t = false := by
    have hne1 : (sentenceLengths t).length ≠ 1 := by omega
    unfold simpleRaises
    simp [hne1]
  refine ⟨hc1, ?_, ?_⟩
  · unfold heurScore
    rw [hc1]
    simp only [if_true]
    ring
  · unfold detect_ai_content_simple
    rw [hr]
    simp only [Bool.false_eq_true, if_false]
    unfold heurIndicators
    rw [hc1]
    simp

/-- Witness for C8 (amended): the four-sentence uniform text receives the
uniformity indicator. -/
theorem uniform_sentences_bonus_witness :
    "Low sentence length variance"
      ∈ (detect_ai_content_simple uniformText4).indicators := by
  refine (uniform_sentences_bonus uniformText4 (by decide) (by decide) ?_).2.2
  have hsl : sentenceLengths uniformText4 = [4, 4, 4, 4] := by decide
  have hv : sampleVar [4, 4, 4, 4] = 0 := by
    norm_num [sampleVar, qmean]
  unfold sentenceCV
  rw [hsl, hv]
  push_cast
  rw [Real.sqrt_zero]
  norm_num [qmean]

/-! ## C4: the unsynchronized model cache -/

/-- A racing interleaving: both threads pass the membership check before
either stores, and the load runs twice. -/
theorem cache_race_trace :
    cacheReach cacheInit ⟨true, 2, CachePC.done, CachePC.done⟩ := by
  show Relation.ReflTransGen cacheStep _ _
  have s1 : cacheStep ⟨false, 0, .check, .check⟩ ⟨false, 0, .load, .check⟩ :=
    cacheStep.check1_miss 0 .check
  have s2 : cacheStep ⟨false, 0, .load, .check⟩ ⟨false, 0, .load, .load⟩ :=
    cacheStep.check2_miss 0 .load
  have s3 : cacheStep ⟨false, 0, .load, .load⟩ ⟨false, 1, .store, .load⟩ :=
    cacheStep.load1 false 0 .load
  have s4 : cacheStep ⟨false, 1, .store, .load⟩ ⟨false, 2, .store, .store⟩ :=
    cacheStep.load2 false 1 .store
  have s5 : cacheStep ⟨false, 2, .store, .store⟩ ⟨true, 2, .done, .store⟩ :=
    cacheStep.store1 false 2 .store
  have s6 : cacheStep ⟨true, 2, .done, .store⟩ ⟨true, 2, .done, .done⟩ :=
    cacheStep.store2 true 2 .done
  exact .head s1 (.head s2 (.head s3 (.head s4 (.head s5 (.single s6)))))

/-- The sequential schedule: thread 1 completes, then thread 2 hits the
cache; one load. -/
theorem cache_seq_trace :
    cacheReach cacheInit ⟨true, 1, CachePC.done, CachePC.done⟩ := by
  show Relation.ReflTransGen cacheStep _ _
  have s1 : cacheStep ⟨false, 0, .check, .check⟩ ⟨false, 0, .load, .check⟩ :=
    cacheStep.check1_miss 0 .check
  have s2 : cacheStep ⟨false, 0, .load, .check⟩ ⟨false, 1, .store, .check⟩ :=
    cacheStep.load1 false 0 .check
  have s3 : cacheStep ⟨false, 1, .store, .check⟩ ⟨true, 1, .done, .check⟩ :=
    cacheStep.store1 false 1 .check
  have s4 : cacheStep ⟨true, 1, .done, .check⟩ ⟨true, 1, .done, .done⟩ :=
    cacheStep.check2_hit 1 .done
  exact .head s1 (.head s2 (.head s3 (.single s4)))

/-- Inductive invariant of the two-thread cache interleaving. -/
theorem cache_inv (s : CacheState) (h : cacheReach cacheInit s) :
    (s.cached = true → 1 ≤ s.loads) ∧
    (s.pc1 = CachePC.store → 1 ≤ s.loads) ∧
    (s.pc2 = CachePC.store → 1 ≤ s.loads) ∧
    (s.pc1 = CachePC.done → s.cached = true) ∧
    (s.pc2 = CachePC.done → s.cached = true) ∧
    s.loads ≤ pcLoadBound s.pc1 + pcLoadBound s.pc2 := by
  induction h with
  | refl => simp [cacheInit, pcLoadBound]
  | tail hab hbc ih =>
    obtain ⟨i1, i2, i3, i4, i5, i6⟩ := ih
    cases hbc <;> simp_all [pcLoadBound] <;> omega

/-- Counterexample to C4 as stated: an interleaving in which both threads
finish and the underlying load ran twice — `get_cached_model` has no
per-key lock, so concurrent first-time loads are not serialized. -/
theorem cache_not_load_once_counterexample :
    cacheReach cacheInit ⟨true, 2, CachePC.done, CachePC.done⟩ ∧
    (⟨true, 2, CachePC.done, CachePC.done⟩ : CacheState).pc1 = CachePC.done ∧
    (⟨true, 2, CachePC.done, CachePC.done⟩ : CacheState).pc2 = CachePC.done ∧
    (⟨true, 2, CachePC.done, CachePC.done⟩ : CacheState).loads ≠ 1 :=
  ⟨cache_race_trace, rfl, rfl, by decide⟩

/-- C4 (amended): without a lock, two concurrent first-time requests for the
same key perform one *or two* underlying loads — never zero, never more —
and both extremes are reachable: the sequential schedule loads once, the
racing schedule twice. -/
theorem cache_loads_between_one_and_two :
    (∀ s : CacheState, cacheReach cacheInit s → s.pc1 = CachePC.done →
        s.pc2 = CachePC.done → 1 ≤ s.loads ∧ s.loads ≤ 2) ∧
    cacheReach cacheInit ⟨true, 1, CachePC.done, CachePC.done⟩ ∧
    cacheReach cacheInit ⟨true, 2, CachePC.done, CachePC.done⟩ := by
  refine ⟨?_, cache_seq_trace, cache_race_trace⟩
  intro s hreach h1 h2
  obtain ⟨i1, _, _, i4, _, i6⟩ := cache_inv s hreach
  constructor
  · exact i1 (i4 h1)
  · rw [h1, h2] at i6
    simpa [pcLoadBound] using i6

/-- Witness for C4 (amended): the racing final state has between 1 and 2
loads. -/
theorem cache_loads_between_one_and_two_witness :
    1 ≤ (⟨true, 2, CachePC.done, CachePC.done⟩ : CacheState).loads ∧
    (⟨true, 2, CachePC.done, CachePC.done⟩ : CacheState).loads ≤ 2 :=
  cache_loads_between_one_and_two.1 _ cache_loads_between_one_and_two.2.2 rfl rfl

end AIDetector
